import Mathlib

/-!
# Verification of the `nomknod` shim (`src/nomknod/nomknod.c`)

The repository provides four C functions: `mknod` and `mknodat`, which
replace device-node creation by ordinary exclusive file creation
(`open`/`openat` with `O_CREAT | O_EXCL` followed by a discarded `close`),
and the two no-op stubs `_mknod` and `_xmknod` that always return 0.

We shallowly embed the code over an explicit filesystem state.  The OS
primitives the shim calls (`open` with `O_CREAT | O_EXCL`, `openat`,
`close`) are modelled as atomic state transformers following their POSIX
semantics; the four shim functions are then translated line by line from
the C source.  Paths are resolved to canonical component lists; the
per-call error detail (`errno`) is part of the state, as in C.
-/

set_option autoImplicit false

namespace Nomknod

/-- Error classifications (`errno` values) the modelled primitives can
produce: entry already exists, missing path component, permission denied,
bad directory descriptor, not a directory, I/O error on close. -/
inductive Errno where
  | EEXIST
  | ENOENT
  | EACCES
  | EBADF
  | ENOTDIR
  | EIO
  deriving DecidableEq, Repr

/-- Filesystem entry types: a regular file, a directory, or the special
node types (`character`, `block`, `fifo`, `socket`) that a real `mknod`
could create but this shim never does. -/
inductive FType where
  | regular
  | directory
  | character
  | block
  | fifo
  | socket
  deriving DecidableEq, Repr

/-- A filesystem entry: its type, permission bits, byte contents, and —
for directories — whether the caller may create entries inside it. -/
structure Entry where
  ftype : FType
  perms : Nat
  contents : List Nat
  writable : Bool
  deriving DecidableEq, Repr

/-- The size of an entry is the length of its contents. -/
def Entry.size (e : Entry) : Nat := e.contents.length

/-- Canonical paths: lists of nonempty name components; `[]` is the root. -/
abbrev Path := List String

/-- The modelled filesystem and process state: the directory tree as an
association list from canonical paths to entries, the set of open file
descriptors, the next descriptor `open` would hand out, the table of open
directory descriptors usable as `dirfd` for `openat`, the current working
directory, the C `errno` cell, and the set of descriptors whose `close`
reports an I/O error. -/
structure FS where
  entries : List (Path × Entry)
  openHandles : List Nat
  nextFd : Nat
  dirFds : List (Nat × Path)
  cwd : Path
  errno : Option Errno
  closeFails : List Nat
  deriving DecidableEq, Repr

/-- Split a character list at `/` into raw (possibly empty) components. -/
def rawComponents : List Char → List Char → List String
  | [], acc => [String.mk acc.reverse]
  | c :: rest, acc =>
    if c = '/' then String.mk acc.reverse :: rawComponents rest []
    else rawComponents rest (c :: acc)

/-- Canonicalize a textual path into its nonempty name components
(`"/tmp//x/"` becomes `["tmp", "x"]`). -/
def components (p : String) : Path :=
  (rawComponents p.data []).filter (fun s => s != "")

/-- A textual path is absolute when it starts with `/`. -/
def isAbsolute (p : String) : Bool :=
  match p.data with
  | '/' :: _ => true
  | _ => false

/-- Resolve a textual path against the current working directory, as the
`open` primitive does: absolute paths stand alone, relative paths are
appended to `cwd`. -/
def resolve (fs : FS) (p : String) : Path :=
  if isAbsolute p then components p else fs.cwd ++ components p

/-- The regular file created by a successful exclusive creation: regular
type, permission bits masked to the low twelve bits of `mode`, empty
contents. -/
def mkEntry (mode : Nat) : Entry :=
  ⟨FType.regular, mode % 4096, [], true⟩

/-- The atomic exclusive-creation primitive on an already-resolved path
(POSIX `open` with `O_CREAT | O_EXCL`): fails with `EEXIST` when an entry
exists at the path, with `ENOENT` when the path is the root or its parent
is missing, with `ENOTDIR` when the parent is not a directory, with
`EACCES` when the parent is not writable; otherwise it creates an empty
regular file there and returns a fresh open descriptor.  Every failure
records its classification in `errno`. -/
def openExcl (fs : FS) (rp : Path) (mode : Nat) : Except Errno Nat × FS :=
  match fs.entries.lookup rp with
  | some _ => (Except.error Errno.EEXIST, { fs with errno := some Errno.EEXIST })
  | none =>
    if rp = [] then (Except.error Errno.ENOENT, { fs with errno := some Errno.ENOENT })
    else
      match fs.entries.lookup rp.dropLast with
      | none => (Except.error Errno.ENOENT, { fs with errno := some Errno.ENOENT })
      | some pe =>
        if pe.ftype = FType.directory then
          if pe.writable then
            (Except.ok fs.nextFd,
             { fs with
                entries := (rp, mkEntry mode) :: fs.entries,
                openHandles := fs.nextFd :: fs.openHandles,
                nextFd := fs.nextFd + 1 })
          else (Except.error Errno.EACCES, { fs with errno := some Errno.EACCES })
        else (Except.error Errno.ENOTDIR, { fs with errno := some Errno.ENOTDIR })

/-- The success precondition of `openExcl`: the path names a creatable,
not-yet-existing entry (nonempty path, no entry there, parent present as a
writable directory).  This is what "valid non-existing path" means for the
shim. -/
def canCreate (fs : FS) (rp : Path) : Bool :=
  !rp.isEmpty && (fs.entries.lookup rp).isNone &&
    (match fs.entries.lookup rp.dropLast with
     | some pe => pe.ftype = FType.directory && pe.writable
     | none => false)

/-- The `close` primitive: closing an open descriptor removes it from the
open set; when the descriptor is marked as failing, `close` reports `EIO`
(the descriptor is deallocated regardless).  Closing a descriptor that is
not open fails with `EBADF`. -/
def closeFd (fs : FS) (fd : Nat) : Except Errno Unit × FS :=
  if fd ∈ fs.openHandles then
    if fd ∈ fs.closeFails then
      (Except.error Errno.EIO,
       { fs with openHandles := fs.openHandles.erase fd, errno := some Errno.EIO })
    else
      (Except.ok (), { fs with openHandles := fs.openHandles.erase fd })
  else (Except.error Errno.EBADF, { fs with errno := some Errno.EBADF })

/-- `open(path, O_CREAT | O_EXCL, mode)`: resolve against the working
directory, then attempt atomic exclusive creation. -/
def openCreatExcl (fs : FS) (path : String) (mode : Nat) : Except Errno Nat × FS :=
  openExcl fs (resolve fs path) mode

/-- `openat` path resolution: an absolute path ignores `fd`; a relative
path is resolved against the directory open at `fd`, failing with `EBADF`
when `fd` is not an open directory descriptor. -/
def resolveAt (fs : FS) (fd : Nat) (path : String) : Except Errno Path :=
  if isAbsolute path then Except.ok (components path)
  else
    match fs.dirFds.lookup fd with
    | none => Except.error Errno.EBADF
    | some dir => Except.ok (dir ++ components path)

/-- `openat(fd, path, O_CREAT | O_EXCL, mode)`: resolve against the
directory descriptor, then attempt atomic exclusive creation. -/
def openatCreatExcl (fs : FS) (fd : Nat) (path : String) (mode : Nat) :
    Except Errno Nat × FS :=
  match resolveAt fs fd path with
  | Except.error e => (Except.error e, { fs with errno := some e })
  | Except.ok rp => openExcl fs rp mode

/-- The shim's `mknod`, translated from the C source: attempt
`open(path, O_CREAT | O_EXCL, mode)`; on failure return `-1`; on success
close the obtained descriptor, discarding the close result, and return
`0`.  `dev` is never used. -/
def mknod (fs : FS) (path : String) (mode : Nat) (dev : Nat) : Int × FS :=
  match openCreatExcl fs path mode with
  | (Except.error _, fs1) => (-1, fs1)
  | (Except.ok tmpfd, fs1) => (0, (closeFd fs1 tmpfd).2)

/-- The shim's `mknodat`, translated from the C source: like `mknod` but
with `openat(fd, path, O_CREAT | O_EXCL, mode)`.  `dev` is never used. -/
def mknodat (fs : FS) (fd : Nat) (path : String) (mode : Nat) (dev : Nat) :
    Int × FS :=
  match openatCreatExcl fs fd path mode with
  | (Except.error _, fs1) => (-1, fs1)
  | (Except.ok tmpfd, fs1) => (0, (closeFd fs1 tmpfd).2)

/-- The shim's `_mknod` stub, translated from the C source: no arguments
are consulted, the state is untouched, the result is `0`. -/
def _mknod (fs : FS) : Int × FS := (0, fs)

/-- The shim's `_xmknod` stub, translated from the C source: the version
tag, path (`none` models a NULL pointer), mode and dev are all ignored,
the state is untouched, the result is `0`. -/
def _xmknod (fs : FS) (version : Int) (path : Option String) (mode : Nat)
    (dev : Nat) : Int × FS := (0, fs)

/-- Run a sequence of `mknod` calls on the same path, one atomic call
after another (any serialization of concurrent callers, each with its own
`mode`/`dev`), recording each call's return value paired with the `errno`
it left behind. -/
def runMknods (fs : FS) (p : String) : List (Nat × Nat) → List (Int × Option Errno) × FS
  | [] => ([], fs)
  | c :: rest =>
    let r := mknod fs p c.1 c.2
    let rs := runMknods r.2 p rest
    ((r.1, r.2.errno) :: rs.1, rs.2)

/-- A small concrete filesystem used to exercise the theorems: a root
directory containing a non-writable `etc`, a writable `tmp`, and a
two-byte regular file `tmp/x`; descriptor 5 is open on `tmp`, the working
directory is `tmp`, and the next fresh descriptor is 3. -/
def fs0 : FS :=
  { entries := [([], ⟨FType.directory, 493, [], true⟩),
                (["etc"], ⟨FType.directory, 493, [], false⟩),
                (["tmp"], ⟨FType.directory, 511, [], true⟩),
                (["tmp", "x"], ⟨FType.regular, 420, [1, 2], true⟩)],
    openHandles := [],
    nextFd := 3,
    dirFds := [(5, ["tmp"])],
    cwd := ["tmp"],
    errno := none,
    closeFails := [] }

/-- The same filesystem with descriptor 3 marked so that its `close`
fails with an I/O error. -/
def fsBadClose : FS := { fs0 with closeFails := [3] }

/-! ## Characterization lemmas for the modelled primitives -/

/-- The filesystem state after a successful `mknod`-style call: the new
regular file is recorded at the resolved path, the next descriptor is
consumed, and `errno` is clobbered exactly when the discarded `close`
failed. -/
def succState (fs : FS) (rp : Path) (m : Nat) : FS :=
  { fs with
      entries := (rp, mkEntry m) :: fs.entries,
      nextFd := fs.nextFd + 1,
      errno := if fs.nextFd ∈ fs.closeFails then some Errno.EIO else fs.errno }

theorem lookup_cons_self {α β : Type} [BEq α] [LawfulBEq α] (a : α) (b : β)
    (l : List (α × β)) : List.lookup a ((a, b) :: l) = some b := by
  simp [List.lookup]

theorem openExcl_exists (fs : FS) (rp : Path) (m : Nat) (ent : Entry)
    (h : fs.entries.lookup rp = some ent) :
    openExcl fs rp m = (Except.error Errno.EEXIST, { fs with errno := some Errno.EEXIST }) := by
  unfold openExcl
  rw [h]

theorem openExcl_canCreate (fs : FS) (rp : Path) (m : Nat)
    (h : canCreate fs rp = true) :
    openExcl fs rp m =
      (Except.ok fs.nextFd,
       { fs with
          entries := (rp, mkEntry m) :: fs.entries,
          openHandles := fs.nextFd :: fs.openHandles,
          nextFd := fs.nextFd + 1 }) := by
  unfold canCreate at h
  rw [Bool.and_eq_true, Bool.and_eq_true] at h
  obtain ⟨⟨h1, h2⟩, h3⟩ := h
  rw [Bool.not_eq_true'] at h1
  rw [Option.isNone_iff_eq_none] at h2
  have hrp : ¬ rp = [] := by
    intro hh
    rw [hh] at h1
    simp at h1
  unfold openExcl
  rw [h2, if_neg hrp]
  cases hp : fs.entries.lookup rp.dropLast with
  | none => rw [hp] at h3; simp at h3
  | some pe =>
    rw [hp] at h3
    rw [Bool.and_eq_true] at h3
    obtain ⟨h4, h5⟩ := h3
    rw [decide_eq_true_iff] at h4
    simp [h4, h5]

theorem openExcl_cases (fs : FS) (rp : Path) (m : Nat) :
    (∃ e, openExcl fs rp m = (Except.error e, { fs with errno := some e })) ∨
      openExcl fs rp m =
        (Except.ok fs.nextFd,
         { fs with
            entries := (rp, mkEntry m) :: fs.entries,
            openHandles := fs.nextFd :: fs.openHandles,
            nextFd := fs.nextFd + 1 }) := by
  unfold openExcl
  split
  · exact Or.inl ⟨_, rfl⟩
  · split
    · exact Or.inl ⟨_, rfl⟩
    · split
      · exact Or.inl ⟨_, rfl⟩
      · split
        · split
          · exact Or.inr rfl
          · exact Or.inl ⟨_, rfl⟩
        · exact Or.inl ⟨_, rfl⟩

theorem openExcl_error (fs : FS) (rp : Path) (m : Nat) (e : Errno)
    (h : (openExcl fs rp m).1 = Except.error e) :
    openExcl fs rp m = (Except.error e, { fs with errno := some e }) := by
  rcases openExcl_cases fs rp m with ⟨e', hc⟩ | hc
  · rw [hc] at h
    simp only [Except.error.injEq] at h
    rw [hc, h]
  · rw [hc] at h
    simp at h

theorem closeFd_afterCreate (fs : FS) (rp : Path) (m : Nat) :
    (closeFd
      { fs with
         entries := (rp, mkEntry m) :: fs.entries,
         openHandles := fs.nextFd :: fs.openHandles,
         nextFd := fs.nextFd + 1 } fs.nextFd).2 = succState fs rp m := by
  unfold closeFd succState
  rw [if_pos (List.mem_cons_self fs.nextFd fs.openHandles)]
  by_cases hf : fs.nextFd ∈ fs.closeFails
  · rw [if_pos hf, if_pos hf]
    simp [List.erase_cons_head]
  · rw [if_neg hf, if_neg hf]
    simp [List.erase_cons_head]

theorem openCreatExcl_error (fs : FS) (p : String) (m : Nat) (e : Errno)
    (h : (openCreatExcl fs p m).1 = Except.error e) :
    openCreatExcl fs p m = (Except.error e, { fs with errno := some e }) := by
  unfold openCreatExcl at h ⊢
  exact openExcl_error fs (resolve fs p) m e h

theorem openatCreatExcl_ok (fs : FS) (fd : Nat) (p : String) (m : Nat) (rp : Path)
    (hra : resolveAt fs fd p = Except.ok rp) :
    openatCreatExcl fs fd p m = openExcl fs rp m := by
  unfold openatCreatExcl
  rw [hra]

theorem openatCreatExcl_error (fs : FS) (fd : Nat) (p : String) (m : Nat) (e : Errno)
    (h : (openatCreatExcl fs fd p m).1 = Except.error e) :
    openatCreatExcl fs fd p m = (Except.error e, { fs with errno := some e }) := by
  unfold openatCreatExcl at h ⊢
  cases hra : resolveAt fs fd p with
  | error e' =>
    rw [hra] at h
    simp only [Except.error.injEq] at h
    subst h
    rfl
  | ok rp =>
    rw [hra] at h
    exact openExcl_error fs rp m e h

theorem mknod_eq_error (fs : FS) (p : String) (m d : Nat) (e : Errno)
    (h : (openCreatExcl fs p m).1 = Except.error e) :
    mknod fs p m d = (-1, { fs with errno := some e }) := by
  unfold mknod
  rw [openCreatExcl_error fs p m e h]

theorem mknod_eq_success (fs : FS) (p : String) (m d : Nat)
    (h : canCreate fs (resolve fs p) = true) :
    mknod fs p m d = (0, succState fs (resolve fs p) m) := by
  unfold mknod openCreatExcl
  rw [openExcl_canCreate fs (resolve fs p) m h]
  exact congrArg (Prod.mk 0) (closeFd_afterCreate fs (resolve fs p) m)

theorem mknod_eq_exists (fs : FS) (p : String) (m d : Nat) (ent : Entry)
    (h : fs.entries.lookup (resolve fs p) = some ent) :
    mknod fs p m d = (-1, { fs with errno := some Errno.EEXIST }) := by
  unfold mknod openCreatExcl
  rw [openExcl_exists fs (resolve fs p) m ent h]

theorem mknodat_eq_success (fs : FS) (fd : Nat) (p : String) (m d : Nat) (rp : Path)
    (hra : resolveAt fs fd p = Except.ok rp) (hc : canCreate fs rp = true) :
    mknodat fs fd p m d = (0, succState fs rp m) := by
  unfold mknodat
  rw [openatCreatExcl_ok fs fd p m rp hra, openExcl_canCreate fs rp m hc]
  exact congrArg (Prod.mk 0) (closeFd_afterCreate fs rp m)

theorem mknod_cases (fs : FS) (p : String) (m d : Nat) :
    (∃ e, mknod fs p m d = (-1, { fs with errno := some e })) ∨
      mknod fs p m d = (0, succState fs (resolve fs p) m) := by
  rcases openExcl_cases fs (resolve fs p) m with ⟨e, hc⟩ | hc
  · refine Or.inl ⟨e, ?_⟩
    unfold mknod openCreatExcl
    rw [hc]
  · refine Or.inr ?_
    unfold mknod openCreatExcl
    rw [hc]
    exact congrArg (Prod.mk 0) (closeFd_afterCreate fs (resolve fs p) m)

theorem mknodat_cases (fs : FS) (fd : Nat) (p : String) (m d : Nat) :
    (∃ e, mknodat fs fd p m d = (-1, { fs with errno := some e })) ∨
      ∃ rp, resolveAt fs fd p = Except.ok rp ∧
        mknodat fs fd p m d = (0, succState fs rp m) := by
  cases hra : resolveAt fs fd p with
  | error e =>
    refine Or.inl ⟨e, ?_⟩
    unfold mknodat openatCreatExcl
    rw [hra]
  | ok rp =>
    rcases openExcl_cases fs rp m with ⟨e, hc⟩ | hc
    · refine Or.inl ⟨e, ?_⟩
      unfold mknodat
      rw [openatCreatExcl_ok fs fd p m rp hra, hc]
    · refine Or.inr ⟨rp, rfl, ?_⟩
      unfold mknodat
      rw [openatCreatExcl_ok fs fd p m rp hra, hc]
      exact congrArg (Prod.mk 0) (closeFd_afterCreate fs rp m)

theorem openExcl_mode_mask (fs : FS) (rp : Path) (m1 m2 : Nat)
    (h : m1 % 4096 = m2 % 4096) :
    openExcl fs rp m1 = openExcl fs rp m2 := by
  have hmk : mkEntry m1 = mkEntry m2 := by
    unfold mkEntry
    rw [h]
  unfold openExcl
  rw [hmk]

theorem openatCreatExcl_mode_mask (fs : FS) (fd : Nat) (p : String) (m1 m2 : Nat)
    (h : m1 % 4096 = m2 % 4096) :
    openatCreatExcl fs fd p m1 = openatCreatExcl fs fd p m2 := by
  unfold openatCreatExcl
  cases hra : resolveAt fs fd p with
  | error e => rfl
  | ok rp => exact openExcl_mode_mask fs rp m1 m2 h

theorem new_entry_regular (fs : FS) (rp : Path) (m : Nat) (q : Path) (ent : Entry)
    (h1 : List.lookup q ((rp, mkEntry m) :: fs.entries) = some ent)
    (h2 : fs.entries.lookup q = none) : ent.ftype = FType.regular := by
  cases hq : (q == rp) with
  | true =>
    simp only [List.lookup, hq, Option.some.injEq] at h1
    subst h1
    rfl
  | false =>
    simp only [List.lookup, hq] at h1
    rw [h2] at h1
    cases h1

theorem runMknods_all_exist (p : String) :
    ∀ (calls : List (Nat × Nat)) (fs : FS) (ent : Entry),
      fs.entries.lookup (resolve fs p) = some ent →
      (runMknods fs p calls).1
          = calls.map (fun _ => ((-1 : Int), (some Errno.EEXIST : Option Errno)))
        ∧ (runMknods fs p calls).2.entries = fs.entries := by
  intro calls
  induction calls with
  | nil =>
    intro fs ent h
    exact ⟨rfl, rfl⟩
  | cons c rest ih =>
    intro fs ent h
    have hm := mknod_eq_exists fs p c.1 c.2 ent h
    have h2 : ({ fs with errno := some Errno.EEXIST } : FS).entries.lookup
        (resolve { fs with errno := some Errno.EEXIST } p) = some ent := h
    obtain ⟨ht, he⟩ := ih { fs with errno := some Errno.EEXIST } ent h2
    constructor
    · show ((mknod fs p c.1 c.2).1, (mknod fs p c.1 c.2).2.errno)
          :: (runMknods (mknod fs p c.1 c.2).2 p rest).1 = _
      rw [hm, List.map_cons]
      exact congrArg (List.cons ((-1 : Int), (some Errno.EEXIST : Option Errno))) ht
    · show (runMknods (mknod fs p c.1 c.2).2 p rest).2.entries = fs.entries
      rw [hm]
      exact he

theorem filter_zero_of_failures (l : List (Nat × Nat)) :
    ((l.map (fun _ => ((-1 : Int), (some Errno.EEXIST : Option Errno)))).filter
      (fun r => r.1 = 0)) = [] := by
  induction l with
  | nil => rfl
  | cons c rest ih =>
    rw [List.map_cons, List.filter_cons]
    simp [ih]

theorem filter_negone_of_failures (l : List (Nat × Nat)) :
    ((l.map (fun _ => ((-1 : Int), (some Errno.EEXIST : Option Errno)))).filter
      (fun r => r.1 = -1)).length = l.length := by
  induction l with
  | nil => rfl
  | cons c rest ih =>
    rw [List.map_cons, List.filter_cons]
    simp [ih]

/-! ## The claims -/

/-- C1: for every valid path at which no entry exists — the resolved path
satisfies the exclusive-creation precondition — and for any `mode` and
`dev` values, `mknod` returns success, and afterwards an entry exists at
the resolved path that is a zero-length regular file (never a character,
block, FIFO, or socket node). -/
theorem mknod_creates_empty_regular (fs : FS) (p : String) (m d : Nat)
    (h : canCreate fs (resolve fs p) = true) :
    (mknod fs p m d).1 = 0 ∧
      ∃ ent, ((mknod fs p m d).2).entries.lookup (resolve fs p) = some ent ∧
        ent.ftype = FType.regular ∧ ent.size = 0 := by
  rw [mknod_eq_success fs p m d h]
  exact ⟨rfl, mkEntry m, lookup_cons_self _ _ _, rfl, rfl⟩

/-- C2: for every path at which an entry already exists, `mknod` fails
with the already-exists classification, and the directory tree is
unchanged: nothing was created anywhere and the pre-existing entry is
still there, untouched. -/
theorem mknod_existing_entry_eexist (fs : FS) (p : String) (m d : Nat) (ent : Entry)
    (h : fs.entries.lookup (resolve fs p) = some ent) :
    (mknod fs p m d).1 = -1 ∧
      ((mknod fs p m d).2).errno = some Errno.EEXIST ∧
      ((mknod fs p m d).2).entries = fs.entries ∧
      ((mknod fs p m d).2).entries.lookup (resolve fs p) = some ent := by
  rw [mknod_eq_exists fs p m d ent h]
  exact ⟨rfl, rfl, rfl, h⟩

/-- C3: `mknodat` has the `mknod` contract up to path resolution: on an
absolute path it ignores `dirfd` and coincides with `mknod` in result and
final state; on a relative path it resolves against the directory open at
`dirfd` and creates the zero-length regular file there. -/
theorem mknodat_resolution (fs : FS) (fd : Nat) (p : String) (m d : Nat) :
    (isAbsolute p = true → mknodat fs fd p m d = mknod fs p m d) ∧
      (∀ dir, isAbsolute p = false → fs.dirFds.lookup fd = some dir →
        canCreate fs (dir ++ components p) = true →
          (mknodat fs fd p m d).1 = 0 ∧
            ∃ ent, ((mknodat fs fd p m d).2).entries.lookup (dir ++ components p)
                = some ent ∧ ent.ftype = FType.regular ∧ ent.size = 0) := by
  constructor
  · intro habs
    have h1 : resolveAt fs fd p = Except.ok (components p) := by
      simp [resolveAt, habs]
    have h2 : resolve fs p = components p := by
      simp [resolve, habs]
    unfold mknodat mknod openCreatExcl
    rw [openatCreatExcl_ok fs fd p m (components p) h1, h2]
  · intro dir habs hdir hcc
    have h1 : resolveAt fs fd p = Except.ok (dir ++ components p) := by
      simp [resolveAt, habs, hdir]
    rw [mknodat_eq_success fs fd p m d (dir ++ components p) h1 hcc]
    exact ⟨rfl, mkEntry m, lookup_cons_self _ _ _, rfl, rfl⟩

/-- C4: whenever the underlying exclusive-creation primitive fails,
`mknod` and `mknodat` return `-1` with the state — in particular the
recorded `errno` classification — exactly as the failed primitive left
it: no wrapping, no retry, no alteration. -/
theorem mknod_propagates_primitive_error (fs : FS) (fd : Nat) (p : String)
    (m d : Nat) (e : Errno) :
    ((openCreatExcl fs p m).1 = Except.error e →
      mknod fs p m d = (-1, (openCreatExcl fs p m).2) ∧
        ((openCreatExcl fs p m).2).errno = some e) ∧
    ((openatCreatExcl fs fd p m).1 = Except.error e →
      mknodat fs fd p m d = (-1, (openatCreatExcl fs fd p m).2) ∧
        ((openatCreatExcl fs fd p m).2).errno = some e) := by
  constructor
  · intro h
    have hc := openCreatExcl_error fs p m e h
    constructor
    · unfold mknod
      rw [hc]
    · rw [hc]
  · intro h
    have hc := openatCreatExcl_error fs fd p m e h
    constructor
    · unfold mknodat
      rw [hc]
    · rw [hc]

/-- C5: `_xmknod` returns success for every combination of version, path
(any string, the empty string, or a NULL pointer modelled as `none`),
mode and dev, and leaves the state completely untouched: it never fails
and performs no validation. -/
theorem xmknod_always_succeeds_noop (fs : FS) (v : Int) (p : Option String)
    (m d : Nat) : _xmknod fs v p m d = (0, fs) := rfl

/-- C6: every call to `_mknod` returns success and leaves the state
completely unchanged. -/
theorem legacy_mknod_succeeds_noop (fs : FS) : _mknod fs = (0, fs) := rfl

/-- C7: the behaviour of `mknod` and of `mknodat` is independent of `dev`
and of the node-type bits of `mode`: two calls agreeing on path (and, for
`mknodat`, on `dirfd`) and on the low (permission) bits of `mode` but
differing arbitrarily in `dev` or in the high type bits produce identical
results and identical states, and any entry either call adds is a regular
file, never a special node. -/
theorem mknod_ignores_dev_and_type_bits (fs : FS) (fd : Nat) (p : String)
    (m1 m2 d1 d2 : Nat) (h : m1 % 4096 = m2 % 4096) :
    (mknod fs p m1 d1 = mknod fs p m2 d2 ∧
      mknodat fs fd p m1 d1 = mknodat fs fd p m2 d2) ∧
      (∀ q ent, ((mknod fs p m1 d1).2).entries.lookup q = some ent →
        fs.entries.lookup q = none → ent.ftype = FType.regular) ∧
      (∀ q ent, ((mknodat fs fd p m1 d1).2).entries.lookup q = some ent →
        fs.entries.lookup q = none → ent.ftype = FType.regular) := by
  refine ⟨⟨?_, ?_⟩, ?_, ?_⟩
  · unfold mknod openCreatExcl
    rw [openExcl_mode_mask fs (resolve fs p) m1 m2 h]
  · unfold mknodat
    rw [openatCreatExcl_mode_mask fs fd p m1 m2 h]
  · intro q ent h1 h2
    rcases mknod_cases fs p m1 d1 with ⟨e, hc⟩ | hc
    · rw [hc] at h1
      have h1' : fs.entries.lookup q = some ent := h1
      rw [h2] at h1'
      cases h1'
    · rw [hc] at h1
      exact new_entry_regular fs (resolve fs p) m1 q ent h1 h2
  · intro q ent h1 h2
    rcases mknodat_cases fs fd p m1 d1 with ⟨e, hc⟩ | ⟨rp, hra, hc⟩
    · rw [hc] at h1
      have h1' : fs.entries.lookup q = some ent := h1
      rw [h2] at h1'
      cases h1'
    · rw [hc] at h1
      exact new_entry_regular fs rp m1 q ent h1 h2

/-- C8: whenever the exclusive-creation open succeeds, `mknod` and
`mknodat` return success even when closing the obtained handle fails: the
close result is discarded and never consulted for the return value. -/
theorem mknod_discards_close_result (fs : FS) (fd : Nat) (p : String) (m d : Nat) :
    (∀ n, (openCreatExcl fs p m).1 = Except.ok n → (mknod fs p m d).1 = 0) ∧
      (∀ n, (openatCreatExcl fs fd p m).1 = Except.ok n →
        (mknodat fs fd p m d).1 = 0) := by
  constructor
  · intro n h
    unfold mknod
    cases hc : openCreatExcl fs p m with
    | mk r st =>
      cases r with
      | error e =>
        rw [hc] at h
        simp at h
      | ok k => rfl
  · intro n h
    unfold mknodat
    cases hc : openatCreatExcl fs fd p m with
    | mk r st =>
      cases r with
      | error e =>
        rw [hc] at h
        simp at h
      | ok k => rfl

/-- C9: neither `mknod` nor `mknodat` leaves a handle open: after any
call the open-handle set is exactly what it was before the call — the
descriptor obtained on the success path is closed before returning, and
no descriptor is obtained on the failure path. -/
theorem mknod_releases_all_handles (fs : FS) (fd : Nat) (p : String) (m d : Nat) :
    ((mknod fs p m d).2).openHandles = fs.openHandles ∧
      ((mknodat fs fd p m d).2).openHandles = fs.openHandles := by
  constructor
  · rcases mknod_cases fs p m d with ⟨e, hc⟩ | hc
    · rw [hc]
    · rw [hc]
      rfl
  · rcases mknodat_cases fs fd p m d with ⟨e, hc⟩ | ⟨rp, _, hc⟩
    · rw [hc]
    · rw [hc]
      rfl

/-- C10: running any number of `mknod` calls on the same initially
creatable path, in any serialization (each call is one atomic use of the
exclusive-creation primitive, so interleavings coincide with
serializations), yields exactly one success; every other call fails with
the already-exists classification. -/
theorem mknod_concurrent_one_success (fs : FS) (p : String) (c : Nat × Nat)
    (rest : List (Nat × Nat)) (h : canCreate fs (resolve fs p) = true) :
    ∃ e1, (runMknods fs p (c :: rest)).1
        = (0, e1) :: rest.map (fun _ => ((-1 : Int), (some Errno.EEXIST : Option Errno)))
      ∧ ((runMknods fs p (c :: rest)).1.filter (fun r => r.1 = 0)).length = 1
      ∧ ((runMknods fs p (c :: rest)).1.filter (fun r => r.1 = -1)).length
          = rest.length := by
  have hm := mknod_eq_success fs p c.1 c.2 h
  have hlook : (succState fs (resolve fs p) c.1).entries.lookup
      (resolve (succState fs (resolve fs p) c.1) p) = some (mkEntry c.1) := by
    show List.lookup (resolve fs p) ((resolve fs p, mkEntry c.1) :: fs.entries)
        = some (mkEntry c.1)
    exact lookup_cons_self _ _ _
  obtain ⟨ht, _⟩ := runMknods_all_exist p rest (succState fs (resolve fs p) c.1)
    (mkEntry c.1) hlook
  have hl : (runMknods fs p (c :: rest)).1
      = (0, (succState fs (resolve fs p) c.1).errno)
        :: rest.map (fun _ => ((-1 : Int), (some Errno.EEXIST : Option Errno))) := by
    show ((mknod fs p c.1 c.2).1, (mknod fs p c.1 c.2).2.errno)
        :: (runMknods (mknod fs p c.1 c.2).2 p rest).1 = _
    rw [hm]
    exact congrArg (List.cons (0, (succState fs (resolve fs p) c.1).errno)) ht
  refine ⟨(succState fs (resolve fs p) c.1).errno, hl, ?_, ?_⟩
  · rw [hl, List.filter_cons]
    simp [filter_zero_of_failures rest]
  · rw [hl, List.filter_cons]
    simp [filter_negone_of_failures rest]

/-! ## Concrete witnesses -/

/-- Witness for C1 at the fresh path `/tmp/y` in `fs0`. -/
theorem mknod_creates_empty_regular_witness :
    canCreate fs0 (resolve fs0 "/tmp/y") = true ∧
      ((mknod fs0 "/tmp/y" 420 7).1 = 0 ∧
        ∃ ent, ((mknod fs0 "/tmp/y" 420 7).2).entries.lookup (resolve fs0 "/tmp/y")
            = some ent ∧ ent.ftype = FType.regular ∧ ent.size = 0) :=
  ⟨by decide, mknod_creates_empty_regular fs0 "/tmp/y" 420 7 (by decide)⟩

/-- Witness for C2 at the existing file `/tmp/x` in `fs0`. -/
theorem mknod_existing_entry_eexist_witness :
    fs0.entries.lookup (resolve fs0 "/tmp/x")
        = some ⟨FType.regular, 420, [1, 2], true⟩ ∧
      ((mknod fs0 "/tmp/x" 420 7).1 = -1 ∧
        ((mknod fs0 "/tmp/x" 420 7).2).errno = some Errno.EEXIST ∧
        ((mknod fs0 "/tmp/x" 420 7).2).entries = fs0.entries ∧
        ((mknod fs0 "/tmp/x" 420 7).2).entries.lookup (resolve fs0 "/tmp/x")
            = some ⟨FType.regular, 420, [1, 2], true⟩) :=
  ⟨by decide,
   mknod_existing_entry_eexist fs0 "/tmp/x" 420 7
     ⟨FType.regular, 420, [1, 2], true⟩ (by decide)⟩

/-- Witness for C3: the absolute path `/tmp/y` ignores descriptor 5, and
the relative path `y2` is created inside the directory open at 5. -/
theorem mknodat_resolution_witness :
    (isAbsolute "/tmp/y" = true ∧
      mknodat fs0 5 "/tmp/y" 420 7 = mknod fs0 "/tmp/y" 420 7) ∧
    (isAbsolute "y2" = false ∧ fs0.dirFds.lookup 5 = some ["tmp"] ∧
      canCreate fs0 (["tmp"] ++ components "y2") = true ∧
      ((mknodat fs0 5 "y2" 448 9).1 = 0 ∧
        ∃ ent, ((mknodat fs0 5 "y2" 448 9).2).entries.lookup
            (["tmp"] ++ components "y2")
            = some ent ∧ ent.ftype = FType.regular ∧ ent.size = 0)) :=
  ⟨⟨by decide, (mknodat_resolution fs0 5 "/tmp/y" 420 7).1 (by decide)⟩,
   ⟨by decide, by decide, by decide,
    (mknodat_resolution fs0 5 "y2" 448 9).2 ["tmp"] (by decide) (by decide)
      (by decide)⟩⟩

/-- Witness for C4: an `EEXIST` failure of `open` propagated by `mknod`,
an `EACCES` failure propagated by `mknod`, and an `EBADF` failure of
`openat` propagated by `mknodat`. -/
theorem mknod_propagates_primitive_error_witness :
    ((openCreatExcl fs0 "/tmp/x" 420).1 = Except.error Errno.EEXIST ∧
      mknod fs0 "/tmp/x" 420 7 = (-1, (openCreatExcl fs0 "/tmp/x" 420).2) ∧
      ((openCreatExcl fs0 "/tmp/x" 420).2).errno = some Errno.EEXIST) ∧
    ((openCreatExcl fs0 "/etc/z" 420).1 = Except.error Errno.EACCES ∧
      mknod fs0 "/etc/z" 420 7 = (-1, (openCreatExcl fs0 "/etc/z" 420).2) ∧
      ((openCreatExcl fs0 "/etc/z" 420).2).errno = some Errno.EACCES) ∧
    ((openatCreatExcl fs0 9 "z" 420).1 = Except.error Errno.EBADF ∧
      mknodat fs0 9 "z" 420 7 = (-1, (openatCreatExcl fs0 9 "z" 420).2) ∧
      ((openatCreatExcl fs0 9 "z" 420).2).errno = some Errno.EBADF) :=
  ⟨⟨rfl,
    (mknod_propagates_primitive_error fs0 9 "/tmp/x" 420 7 Errno.EEXIST).1
      rfl⟩,
   ⟨rfl,
    (mknod_propagates_primitive_error fs0 9 "/etc/z" 420 7 Errno.EACCES).1
      rfl⟩,
   ⟨rfl,
    (mknod_propagates_primitive_error fs0 9 "z" 420 7 Errno.EBADF).2
      rfl⟩⟩

/-- Witness for C7: permission bits `0644` with no device against mode
`0o20644` (a character-device request) with device `259`: identical
outcome for `mknod` on the path and for `mknodat` on the path and
descriptor 5. -/
theorem mknod_ignores_dev_and_type_bits_witness :
    420 % 4096 = 8612 % 4096 ∧
      mknod fs0 "y2" 420 0 = mknod fs0 "y2" 8612 259 ∧
      mknodat fs0 5 "y2" 420 0 = mknodat fs0 5 "y2" 8612 259 :=
  ⟨by decide,
   (mknod_ignores_dev_and_type_bits fs0 5 "y2" 420 8612 0 259 (by decide)).1.1,
   (mknod_ignores_dev_and_type_bits fs0 5 "y2" 420 8612 0 259 (by decide)).1.2⟩

/-- Witness for C8 in `fsBadClose`, where closing the freshly obtained
descriptor 3 fails with `EIO`: both calls still return 0. -/
theorem mknod_discards_close_result_witness :
    (openCreatExcl fsBadClose "/tmp/y" 420).1 = Except.ok 3 ∧
      (closeFd (openCreatExcl fsBadClose "/tmp/y" 420).2 3).1
          = Except.error Errno.EIO ∧
      (mknod fsBadClose "/tmp/y" 420 7).1 = 0 ∧
      (mknodat fsBadClose 5 "y" 420 7).1 = 0 :=
  ⟨rfl, rfl,
   (mknod_discards_close_result fsBadClose 5 "/tmp/y" 420 7).1 3 rfl,
   (mknod_discards_close_result fsBadClose 5 "y" 420 7).2 3 rfl⟩

/-- Witness for C10: three serialized `mknod` calls on the fresh path
`/tmp/y`: the first succeeds, the other two fail with `EEXIST`. -/
theorem mknod_concurrent_one_success_witness :
    canCreate fs0 (resolve fs0 "/tmp/y") = true ∧
      ∃ e1, (runMknods fs0 "/tmp/y" [(420, 0), (448, 1), (420, 2)]).1
          = (0, e1) :: ([(448, 1), (420, 2)] : List (Nat × Nat)).map
              (fun _ => ((-1 : Int), (some Errno.EEXIST : Option Errno)))
        ∧ ((runMknods fs0 "/tmp/y" [(420, 0), (448, 1), (420, 2)]).1.filter
            (fun r => r.1 = 0)).length = 1
        ∧ ((runMknods fs0 "/tmp/y" [(420, 0), (448, 1), (420, 2)]).1.filter
            (fun r => r.1 = -1)).length
            = ([(448, 1), (420, 2)] : List (Nat × Nat)).length :=
  ⟨by decide,
   mknod_concurrent_one_success fs0 "/tmp/y" (420, 0) [(448, 1), (420, 2)]
     (by decide)⟩

end Nomknod
